import Mathlib

/-!
Verification of the idb-helper library (src/src/index.ts) against its
specification. The file shallowly embeds the library: JavaScript objects
are association lists of fields, the single IndexedDB object store is a
key-ordered record list with an autoincrement generator, each facade
method is a function from the store state (and the engine-reported outcome
of the primitive request it issues) to a settled promise value, modelled
as `Except`.
-/

set_option autoImplicit false

namespace IDB

/-- JavaScript field values, restricted to the shapes the library's records
use (the data model requires a numeric identity field; other fields carry
numbers, strings or booleans). -/
inductive Value where
  | num (n : Int)
  | str (s : String)
  | bool (b : Bool)
  deriving DecidableEq

/-- A JavaScript object: an open-ended mapping from field names to values,
kept in property order. -/
abbrev Obj := List (String × Value)

/-- Property lookup `o[f]`: the value of field `f`, `none` when absent. -/
def Obj.get : Obj → String → Option Value
  | [], _ => none
  | (k, v) :: rest, f => if k = f then some v else Obj.get rest f

/-- JavaScript object spread of `b` over `a` (`...a` then `...b` in one
literal): fields of `b` override fields of `a`, all other fields of `a`
are kept. -/
def Obj.spread (a b : Obj) : Obj :=
  a.filter (fun p => (Obj.get b p.1).isNone) ++ b

/-- The numeric id field of a record (0 when absent or non-numeric); under
the store invariant every stored record has a numeric id. -/
def idOf (r : Obj) : Int :=
  match Obj.get r "id" with
  | some (Value.num i) => i
  | _ => 0

/-- A failure reported by the underlying engine for a request or a
transaction (quota exceeded, constraint violation, I/O failure at the
engine layer). -/
inductive EngineFailure where
  | quotaExceeded
  | constraintViolation
  | ioFailure
  | other (name : String)
  deriving DecidableEq

/-- The value a facade operation's promise is rejected with. -/
inductive JSError where
  /-- `request.error` / `tx.error`: the engine's reported failure for the
  issued primitive, surfaced as the storage-layer rejection. -/
  | storageError (e : EngineFailure)
  /-- An `Error` constructed by the facade itself, carrying its message
  (`updateItem` rejects `new Error` with message "Item not found!"). -/
  | jsError (msg : String)
  /-- The DOMException thrown synchronously by `store.index(name)` when no
  index of that name was declared at schema-creation time. -/
  | indexNotFound
  /-- TypeError: a method access on an undefined database handle. -/
  | typeError
  deriving DecidableEq

/-- The record list of the object store, in ascending key order. -/
abbrev Recs := List (Int × Obj)

/-- Insertion into the key-ordered record list, replacing any record
already stored at the same key (IndexedDB `put` upsert semantics). -/
def insertRec (k : Int) (v : Obj) : Recs → Recs
  | [] => [(k, v)]
  | (k₁, v₁) :: rest =>
    if k < k₁ then (k, v) :: (k₁, v₁) :: rest
    else if k = k₁ then (k, v) :: rest
    else (k₁, v₁) :: insertRec k v rest

/-- Key lookup in the record list (IndexedDB `get` semantics: the record
stored at the key, or nothing). -/
def lookupRec (k : Int) : Recs → Option Obj
  | [] => none
  | (k₁, v) :: rest => if k₁ = k then some v else lookupRec k rest

/-- Key removal from the record list (IndexedDB `delete` semantics:
removing an absent key leaves the list unchanged). -/
def eraseRec (k : Int) : Recs → Recs
  | [] => []
  | (k₁, v) :: rest => if k₁ = k then rest else (k₁, v) :: eraseRec k rest

/-- The state of the single object store created by the upgrade callback
(`keyPath: "id", autoIncrement: true`): the records in ascending key
order, the autoincrement key generator, and the names of the secondary
indexes declared at schema-creation time. -/
structure Store where
  recs : Recs
  nextKey : Int
  indexes : List String
  deriving DecidableEq

/-- IndexedDB `store.put(data)` on the store with key path `id` and
autoincrement: an explicit numeric `id` field is used as the key,
replacing any record sharing it; with no `id` field the generator assigns
the next key and injects it into the stored record at the key path.
Returns the key together with the updated store. -/
def Store.putRec (st : Store) (data : Obj) : Int × Store :=
  match Obj.get data "id" with
  | some (Value.num k) =>
      (k, { st with recs := insertRec k data st.recs,
                    nextKey := max st.nextKey (k + 1) })
  | _ =>
      (st.nextKey,
       { st with recs := insertRec st.nextKey
                   (Obj.spread data [("id", Value.num st.nextKey)]) st.recs,
                 nextKey := st.nextKey + 1 })

/-- IndexedDB `store.getAll()`: every record, in ascending key order. -/
def Store.getAll (st : Store) : List Obj :=
  st.recs.map Prod.snd

/-- Well-formedness of the record list: keys strictly ascending (hence
unique) and every stored record carries its key in its `id` field — the
invariant IndexedDB maintains for a store with key path `id`. -/
def RecsWF (recs : Recs) : Prop :=
  List.Pairwise (fun p q => p.1 < q.1) recs ∧
  ∀ p ∈ recs, Obj.get p.2 "id" = some (Value.num p.1)

/-- Store well-formedness. -/
def Store.WF (st : Store) : Prop := RecsWF st.recs

namespace IDBHelper

/-- `setItem(data)`: one readwrite transaction issuing `put(data)`; the
promise resolves with `request.result` (the key) on the success event and
rejects with `request.error` on the error event. `fail` is the outcome the
engine reports for the issued request. -/
def setItem (st : Store) (fail : Option EngineFailure) (data : Obj) :
    Except JSError Int × Store :=
  match fail with
  | some e => (Except.error (JSError.storageError e), st)
  | none => ((Except.ok (st.putRec data).1), (st.putRec data).2)

/-- `getItem(id)`: one readonly transaction issuing `get(id)`; resolves
with the record, or `undefined` (here `none`) when absent. -/
def getItem (st : Store) (fail : Option EngineFailure) (id : Int) :
    Except JSError (Option Obj) :=
  match fail with
  | some e => Except.error (JSError.storageError e)
  | none => Except.ok (lookupRec id st.recs)

/-- `getAllItems()`: one readonly transaction issuing `getAll()`. -/
def getAllItems (st : Store) (fail : Option EngineFailure) :
    Except JSError (List Obj) :=
  match fail with
  | some e => Except.error (JSError.storageError e)
  | none => Except.ok st.getAll

/-- `removeItem(id)`: one readwrite transaction issuing `delete(id)`;
resolves with nothing. -/
def removeItem (st : Store) (fail : Option EngineFailure) (id : Int) :
    Except JSError Unit × Store :=
  match fail with
  | some e => (Except.error (JSError.storageError e), st)
  | none => (Except.ok (), { st with recs := eraseRec id st.recs })

/-- `clear()`: one readwrite transaction issuing `clear()`. -/
def clear (st : Store) (fail : Option EngineFailure) :
    Except JSError Unit × Store :=
  match fail with
  | some e => (Except.error (JSError.storageError e), st)
  | none => (Except.ok (), { st with recs := [] })

/-- `hasItem(id)`: one readonly transaction issuing `get(id)`, resolving
`!!request.result`; stored values are objects, which are truthy, so the
double negation is presence of the record. -/
def hasItem (st : Store) (fail : Option EngineFailure) (id : Int) :
    Except JSError Bool :=
  match fail with
  | some e => Except.error (JSError.storageError e)
  | none => Except.ok (lookupRec id st.recs).isSome

/-- `count()`: one readonly transaction issuing `count()`. -/
def count (st : Store) (fail : Option EngineFailure) :
    Except JSError Nat :=
  match fail with
  | some e => Except.error (JSError.storageError e)
  | none => Except.ok st.recs.length

/-- `updateItem(id, updates)`: awaits `getItem(id)`; if the result is
falsy rejects `new Error` with message "Item not found!"; otherwise puts
the object literal spreading `existing`, then `updates`, then the literal
property `id`, and resolves with nothing. Any error from the two awaited
calls is caught and rejected unchanged. `failGet` and `failPut` are the
engine outcomes of the two issued requests. -/
def updateItem (st : Store) (failGet failPut : Option EngineFailure)
    (id : Int) (updates : Obj) : Except JSError Unit × Store :=
  match getItem st failGet id with
  | Except.error e => (Except.error e, st)
  | Except.ok none => (Except.error (JSError.jsError "Item not found!"), st)
  | Except.ok (some existing) =>
      match setItem st failPut
          (Obj.spread (Obj.spread existing updates) [("id", Value.num id)]) with
      | (Except.error e, _) => (Except.error e, st)
      | (Except.ok _, st₁) => (Except.ok (), st₁)

/-- `getByIndex(indexName, value)`: `store.index(indexName)` throws a
DOMException when the index was not declared at schema-creation time,
rejecting the promise; otherwise `index.get(value)` resolves with the
first record (in key order) whose indexed field equals the value, or
`undefined` when none matches. -/
def getByIndex (st : Store) (fail : Option EngineFailure)
    (indexName : String) (v : Value) : Except JSError (Option Obj) :=
  if indexName ∈ st.indexes then
    match fail with
    | some e => Except.error (JSError.storageError e)
    | none =>
        Except.ok ((st.recs.find?
          (fun p => Obj.get p.2 indexName = some v)).map Prod.snd)
  else Except.error JSError.indexNotFound

/-- `getItemsByFilter(filter)`: `getAll()` and a local filter over the
materialized result. -/
def getItemsByFilter (st : Store) (fail : Option EngineFailure)
    (filter : Obj → Bool) : Except JSError (List Obj) :=
  match fail with
  | some e => Except.error (JSError.storageError e)
  | none => Except.ok (st.getAll.filter filter)

/-- The filter predicate of `getItemsByRange`: the JavaScript comparison
`item.id >= startId && item.id <= endId`; a missing or non-numeric id
compares false. -/
def idInRange (startId endId : Int) (r : Obj) : Bool :=
  match Obj.get r "id" with
  | some (Value.num i) => decide (startId ≤ i ∧ i ≤ endId)
  | _ => false

/-- `getItemsByRange(startId, endId)`: `getAll()` and a local filter
keeping the records whose id lies between the two bounds, both
inclusive. -/
def getItemsByRange (st : Store) (fail : Option EngineFailure)
    (startId endId : Int) : Except JSError (List Obj) :=
  match fail with
  | some e => Except.error (JSError.storageError e)
  | none => Except.ok (st.getAll.filter (idInRange startId endId))

/-- The state reached by the puts of `bulkInsert`, in input order. -/
def applyPuts (st : Store) (items : List Obj) : Store :=
  items.foldl (fun s it => (s.putRec it).2) st

/-- The state reached by the deletes of `bulkDelete`, in input order. -/
def applyDeletes (st : Store) (ids : List Int) : Store :=
  ids.foldl (fun s i => { s with recs := eraseRec i s.recs }) st

/-- `bulkInsert(items)`: one readwrite transaction issuing a `put` per
item; the promise resolves only on the transaction's complete event and
rejects with `tx.error` if the transaction aborts, in which case none of
its writes commit. `txFail` is the transaction's outcome. -/
def bulkInsert (st : Store) (txFail : Option EngineFailure)
    (items : List Obj) : Except JSError Unit × Store :=
  match txFail with
  | some e => (Except.error (JSError.storageError e), st)
  | none => (Except.ok (), applyPuts st items)

/-- `bulkDelete(ids)`: one readwrite transaction issuing a `delete` per
id; same completion contract as `bulkInsert`. -/
def bulkDelete (st : Store) (txFail : Option EngineFailure)
    (ids : List Int) : Except JSError Unit × Store :=
  match txFail with
  | some e => (Except.error (JSError.storageError e), st)
  | none => (Except.ok (), applyDeletes st ids)

/-- Folding `setItem` over a list of records (engine reporting success for
each request). -/
def runSetItems (st : Store) (ds : List Obj) : Store :=
  ds.foldl (fun s d => (setItem s none d).2) st

end IDBHelper

/-- The outcome the engine reports for an `indexedDB.open` request. -/
inductive OpenOutcome where
  | success (db : Store)
  | failure (e : EngineFailure)
  deriving DecidableEq

/-- The promise-based `openDB` of the first variant (lines 12-26): the
promise resolves with the opened handle on the request's success event
and rejects with `request.error` on its error event. -/
def openDB : OpenOutcome → Except JSError Store
  | OpenOutcome.success db => Except.ok db
  | OpenOutcome.failure e => Except.error (JSError.storageError e)

/-- The handle a first-variant operation issues its transaction against:
`const db = await this.openDB()` precedes `db.transaction(...)`, so a
transaction is issued only in the branch where the awaited open resolved,
and it targets the handle the open resolved with. -/
def txHandleV1 (oc : OpenOutcome) : Option Store :=
  match openDB oc with
  | Except.ok db => some db
  | Except.error _ => none

/-- First-variant `getItem`: await `openDB`, then issue the readonly
transaction against the awaited handle. -/
def getItemV1 (oc : OpenOutcome) (fail : Option EngineFailure) (id : Int) :
    Except JSError (Option Obj) :=
  match openDB oc with
  | Except.error e => Except.error e
  | Except.ok db => IDBHelper.getItem db fail id

/-- The cached-handle facade of the second variant: `this.db` holds the
database handle once the open request's success callback has assigned it,
and is undefined before that (the error callback only logs). -/
structure Facade2 where
  db : Option Store
  deriving DecidableEq

/-- The constructor calls `init()`, which fires the open request and
returns immediately: right after construction `this.db` is still
undefined. -/
def Facade2.construct : Facade2 := { db := none }

/-- The open request's success callback: `this.db = request.result`. -/
def Facade2.onOpenSuccess (_f : Facade2) (db : Store) : Facade2 :=
  { db := some db }

/-- `tx(mode)` (lines 168-170): `this.db.transaction(...)` is issued
against whatever `this.db` currently holds, with no wait; on an undefined
handle the method access throws a TypeError. -/
def Facade2.tx (f : Facade2) : Except JSError Store :=
  match f.db with
  | none => Except.error JSError.typeError
  | some db => Except.ok db

/-- Second-variant `getItem`, issued through `tx`. -/
def Facade2.getItem (f : Facade2) (fail : Option EngineFailure) (id : Int) :
    Except JSError (Option Obj) :=
  match f.tx with
  | Except.error e => Except.error e
  | Except.ok db => IDBHelper.getItem db fail id

/-- A sample well-formed store holding records with ids 1 to 5. -/
def sampleStore5 : Store :=
  { recs := [(1, [("id", Value.num 1), ("name", Value.str "a")]),
             (2, [("id", Value.num 2), ("name", Value.str "b")]),
             (3, [("id", Value.num 3), ("name", Value.str "c")]),
             (4, [("id", Value.num 4), ("name", Value.str "d")]),
             (5, [("id", Value.num 5), ("name", Value.str "e")])],
    nextKey := 6,
    indexes := [] }

/-- A sample store with one record and a declared index on field "name". -/
def sampleIndexedStore : Store :=
  { recs := [(1, [("id", Value.num 1), ("name", Value.str "a")])],
    nextKey := 2,
    indexes := ["name"] }

/-- The empty store. -/
def emptyStore : Store :=
  { recs := [], nextKey := 1, indexes := [] }

/-- Decidable equality of settled promise values. -/
instance exceptDecEq {ε α : Type} [DecidableEq ε] [DecidableEq α] :
    DecidableEq (Except ε α) := fun a b =>
  match a, b with
  | Except.error e₁, Except.error e₂ =>
      if h : e₁ = e₂ then Decidable.isTrue (by rw [h])
      else Decidable.isFalse (by simp [h])
  | Except.error _, Except.ok _ => Decidable.isFalse (by simp)
  | Except.ok a₁, Except.ok a₂ =>
      if h : a₁ = a₂ then Decidable.isTrue (by rw [h])
      else Decidable.isFalse (by simp [h])
  | Except.ok _, Except.error _ => Decidable.isFalse (by simp)

instance recsWFDec (recs : Recs) : Decidable (RecsWF recs) := by
  unfold RecsWF
  infer_instance

instance storeWFDec (st : Store) : Decidable (Store.WF st) := by
  unfold Store.WF
  infer_instance

/-! ### Lemmas about object field lookup and spread -/

theorem Obj.get_append (a b : Obj) (f : String) :
    Obj.get (a ++ b) f =
      match Obj.get a f with
      | some v => some v
      | none => Obj.get b f := by
  induction a with
  | nil => rfl
  | cons p rest ih =>
      obtain ⟨k, v⟩ := p
      by_cases h : k = f <;> simp [Obj.get, h, ih]

theorem Obj.get_filter_spread_none (a b : Obj) (f : String) (v : Value)
    (h : Obj.get b f = some v) :
    Obj.get (a.filter (fun p => (Obj.get b p.1).isNone)) f = none := by
  induction a with
  | nil => rfl
  | cons p rest ih =>
      obtain ⟨k, w⟩ := p
      by_cases hk : k = f
      · subst hk
        simp only [List.filter_cons, h]
        simpa using ih
      · simp only [List.filter_cons]
        by_cases hb : (Obj.get b k).isNone
        · simp only [hb, if_pos]
          simpa [Obj.get, hk] using ih
        · simp only [hb]
          simpa using ih

theorem Obj.get_filter_spread_eq (a b : Obj) (f : String)
    (h : Obj.get b f = none) :
    Obj.get (a.filter (fun p => (Obj.get b p.1).isNone)) f = Obj.get a f := by
  induction a with
  | nil => rfl
  | cons p rest ih =>
      obtain ⟨k, w⟩ := p
      by_cases hk : k = f
      · subst hk
        simp [List.filter_cons, h, Obj.get]
      · simp only [List.filter_cons]
        by_cases hb : (Obj.get b k).isNone
        · simp only [hb, if_pos]
          simpa [Obj.get, hk] using ih
        · simp only [hb]
          simpa [Obj.get, hk] using ih

theorem Obj.get_spread_of_some (a b : Obj) (f : String) (v : Value)
    (h : Obj.get b f = some v) :
    Obj.get (Obj.spread a b) f = some v := by
  unfold Obj.spread
  rw [Obj.get_append, Obj.get_filter_spread_none a b f v h]
  exact h

theorem Obj.get_spread_of_none (a b : Obj) (f : String)
    (h : Obj.get b f = none) :
    Obj.get (Obj.spread a b) f = Obj.get a f := by
  unfold Obj.spread
  rw [Obj.get_append, Obj.get_filter_spread_eq a b f h]
  cases hg : Obj.get a f with
  | some v => rfl
  | none => exact h

/-! ### Lemmas about the record list -/

theorem lookupRec_insertRec (k k₁ : Int) (v : Obj) (recs : Recs) :
    lookupRec k (insertRec k₁ v recs) =
      if k₁ = k then some v else lookupRec k recs := by
  induction recs with
  | nil => simp [insertRec, lookupRec]
  | cons p rest ih =>
      obtain ⟨k₂, v₂⟩ := p
      by_cases h1 : k₁ < k₂
      · simp [insertRec, h1, lookupRec]
      · by_cases h2 : k₁ = k₂
        · subst h2
          by_cases h3 : k₁ = k <;> simp [insertRec, h1, lookupRec, h3]
        · by_cases h3 : k₂ = k
          · have hne : ¬ k₁ = k := by omega
            have h4 : ¬ k₁ < k := by omega
            simp [insertRec, h1, h2, lookupRec, h3, hne, h4]
          · simp [insertRec, h1, h2, lookupRec, h3, ih]

theorem mem_insertRec (k : Int) (v : Obj) (recs : Recs) (q : Int × Obj)
    (hq : q ∈ insertRec k v recs) : q = (k, v) ∨ q ∈ recs := by
  induction recs with
  | nil => simpa [insertRec] using hq
  | cons p rest ih =>
      obtain ⟨k₂, v₂⟩ := p
      by_cases h1 : k < k₂
      · simp only [insertRec, if_pos h1, List.mem_cons] at hq
        simp only [List.mem_cons]
        tauto
      · by_cases h2 : k = k₂
        · simp only [insertRec, if_neg h1, if_pos h2, List.mem_cons] at hq
          simp only [List.mem_cons]
          tauto
        · simp only [insertRec, if_neg h1, if_neg h2, List.mem_cons] at hq
          rcases hq with hq | hq
          · right; simp [hq]
          · rcases ih hq with h | h
            · left; exact h
            · right; simp [h]

theorem pairwise_insertRec (k : Int) (v : Obj) (recs : Recs)
    (h : List.Pairwise (fun p q : Int × Obj => p.1 < q.1) recs) :
    List.Pairwise (fun p q : Int × Obj => p.1 < q.1) (insertRec k v recs) := by
  induction recs with
  | nil => simp [insertRec]
  | cons p rest ih =>
      obtain ⟨k₂, v₂⟩ := p
      rw [List.pairwise_cons] at h
      obtain ⟨hhead, htail⟩ := h
      by_cases h1 : k < k₂
      · simp only [insertRec, if_pos h1]
        refine List.Pairwise.cons ?_ (List.Pairwise.cons hhead htail)
        intro q hq
        rcases List.mem_cons.mp hq with rfl | hq
        · exact h1
        · exact lt_trans h1 (hhead q hq)
      · by_cases h2 : k = k₂
        · subst h2
          simp only [insertRec, if_neg h1, if_pos rfl]
          exact List.Pairwise.cons hhead htail
        · simp only [insertRec, if_neg h1, if_neg h2]
          refine List.Pairwise.cons ?_ (ih htail)
          intro q hq
          rcases mem_insertRec k v rest q hq with rfl | hq
          · show k₂ < k
            omega
          · exact hhead q hq

theorem recsWF_insertRec (k : Int) (v : Obj) (recs : Recs)
    (h : RecsWF recs) (hv : Obj.get v "id" = some (Value.num k)) :
    RecsWF (insertRec k v recs) := by
  refine ⟨pairwise_insertRec k v recs h.1, ?_⟩
  intro p hp
  rcases mem_insertRec k v recs p hp with rfl | hp
  · exact hv
  · exact h.2 p hp

theorem lookupRec_eq_none (recs : Recs) (k : Int)
    (h : ∀ q ∈ recs, q.1 ≠ k) : lookupRec k recs = none := by
  induction recs with
  | nil => rfl
  | cons p rest ih =>
      obtain ⟨k₂, v₂⟩ := p
      have hne : k₂ ≠ k := h (k₂, v₂) (by simp)
      simp only [lookupRec, if_neg hne]
      exact ih (fun q hq => h q (List.mem_cons_of_mem _ hq))

theorem forall_of_lookupRec_none (recs : Recs) (k : Int)
    (h : lookupRec k recs = none) : ∀ q ∈ recs, q.1 ≠ k := by
  induction recs with
  | nil => intro q hq; cases hq
  | cons p rest ih =>
      obtain ⟨k₂, v₂⟩ := p
      by_cases hk : k₂ = k
      · simp [lookupRec, hk] at h
      · intro q hq
        rcases List.mem_cons.mp hq with rfl | hq
        · exact hk
        · exact ih (by simpa [lookupRec, hk] using h) q hq

theorem mem_eraseRec (k : Int) (recs : Recs) (q : Int × Obj)
    (hq : q ∈ eraseRec k recs) : q ∈ recs := by
  induction recs with
  | nil => simp [eraseRec] at hq
  | cons p rest ih =>
      obtain ⟨k₂, v₂⟩ := p
      by_cases h : k₂ = k
      · simp only [eraseRec, if_pos h] at hq
        exact List.mem_cons_of_mem _ hq
      · simp only [eraseRec, if_neg h, List.mem_cons] at hq
        rcases hq with rfl | hq
        · simp
        · exact List.mem_cons_of_mem _ (ih hq)

theorem pairwise_eraseRec (k : Int) (recs : Recs)
    (h : List.Pairwise (fun p q : Int × Obj => p.1 < q.1) recs) :
    List.Pairwise (fun p q : Int × Obj => p.1 < q.1) (eraseRec k recs) := by
  induction recs with
  | nil => simp [eraseRec]
  | cons p rest ih =>
      obtain ⟨k₂, v₂⟩ := p
      rw [List.pairwise_cons] at h
      by_cases hk : k₂ = k
      · simp only [eraseRec, if_pos hk]
        exact h.2
      · simp only [eraseRec, if_neg hk]
        exact List.Pairwise.cons
          (fun q hq => h.1 q (mem_eraseRec k rest q hq)) (ih h.2)

theorem recsWF_eraseRec (k : Int) (recs : Recs) (h : RecsWF recs) :
    RecsWF (eraseRec k recs) :=
  ⟨pairwise_eraseRec k recs h.1,
   fun p hp => h.2 p (mem_eraseRec k recs p hp)⟩

theorem lookupRec_eraseRec_self (k : Int) (recs : Recs)
    (h : List.Pairwise (fun p q : Int × Obj => p.1 < q.1) recs) :
    lookupRec k (eraseRec k recs) = none := by
  induction recs with
  | nil => rfl
  | cons p rest ih =>
      obtain ⟨k₂, v₂⟩ := p
      rw [List.pairwise_cons] at h
      by_cases hk : k₂ = k
      · subst hk
        simp only [eraseRec, if_pos rfl]
        exact lookupRec_eq_none rest k₂ (fun q hq => ne_of_gt (h.1 q hq))
      · simp only [eraseRec, if_neg hk, lookupRec, if_neg hk]
        exact ih h.2

theorem eraseRec_of_lookup_none (k : Int) (recs : Recs)
    (h : lookupRec k recs = none) : eraseRec k recs = recs := by
  induction recs with
  | nil => rfl
  | cons p rest ih =>
      obtain ⟨k₂, v₂⟩ := p
      by_cases hk : k₂ = k
      · simp [lookupRec, hk] at h
      · simp only [lookupRec, if_neg hk] at h
        simp [eraseRec, hk, ih h]

theorem lookupRec_eraseRec_none_pres (k i : Int) (recs : Recs)
    (h : lookupRec k recs = none) :
    lookupRec k (eraseRec i recs) = none :=
  lookupRec_eq_none _ _
    (fun q hq => forall_of_lookupRec_none recs k h q (mem_eraseRec i recs q hq))

/-! ### Lemmas about the store operations -/

theorem putRec_recs_shape (st : Store) (data : Obj) :
    ∃ k₁ v₁, (st.putRec data).2.recs = insertRec k₁ v₁ st.recs := by
  unfold Store.putRec
  split
  · exact ⟨_, _, rfl⟩
  · exact ⟨_, _, rfl⟩

theorem lookupRec_putRec_self (st : Store) (data : Obj) (k : Int)
    (h : Obj.get data "id" = some (Value.num k)) :
    lookupRec k (st.putRec data).2.recs = some data := by
  unfold Store.putRec
  rw [h]
  simp [lookupRec_insertRec]

theorem wf_putRec (st : Store) (data : Obj) (h : st.WF) :
    (st.putRec data).2.WF := by
  unfold Store.WF Store.putRec
  split
  next k heq =>
    exact recsWF_insertRec k data st.recs h heq
  next heq =>
    exact recsWF_insertRec _ _ st.recs h
      (Obj.get_spread_of_some _ _ _ _ (by simp [Obj.get]))

theorem wf_runSetItems (st : Store) (ds : List Obj) (h : st.WF) :
    (IDBHelper.runSetItems st ds).WF := by
  induction ds generalizing st with
  | nil => exact h
  | cons d rest ih => exact ih _ (wf_putRec st d h)

theorem runSetItems_append_last (st : Store) (ds : List Obj) (d : Obj)
    (k : Int) (hd : Obj.get d "id" = some (Value.num k)) :
    lookupRec k (IDBHelper.runSetItems st (ds ++ [d])).recs = some d := by
  induction ds generalizing st with
  | nil =>
      show lookupRec k (st.putRec d).2.recs = some d
      exact lookupRec_putRec_self st d k hd
  | cons d₁ rest ih => exact ih _

theorem filter_id_eq_lookup (recs : Recs) (k : Int) (h : RecsWF recs) :
    (recs.map Prod.snd).filter
        (fun r => Obj.get r "id" = some (Value.num k)) =
      (lookupRec k recs).toList := by
  induction recs with
  | nil => rfl
  | cons p rest ih =>
      obtain ⟨k₂, v₂⟩ := p
      have hid : Obj.get v₂ "id" = some (Value.num k₂) :=
        h.2 (k₂, v₂) (by simp)
      have hpw := List.pairwise_cons.mp h.1
      have htail : RecsWF rest :=
        ⟨hpw.2, fun q hq => h.2 q (List.mem_cons_of_mem _ hq)⟩
      by_cases hk : k₂ = k
      · subst hk
        have hnil : (rest.map Prod.snd).filter
            (fun r => Obj.get r "id" = some (Value.num k₂)) = [] := by
          rw [List.filter_eq_nil_iff]
          intro r hr
          obtain ⟨q, hq, rfl⟩ := List.mem_map.mp hr
          have hqid := h.2 q (List.mem_cons_of_mem _ hq)
          have hlt : k₂ < q.1 := hpw.1 q hq
          simp [hqid]
          omega
        simp only [List.map_cons, List.filter_cons, lookupRec, if_pos rfl]
        rw [if_pos (by simp [hid])]
        simp [hnil]
      · have hne : ¬ (Obj.get v₂ "id" = some (Value.num k)) := by
          rw [hid]
          simp
          omega
        simp only [List.map_cons, List.filter_cons, lookupRec, if_neg hk]
        rw [if_neg (by simpa using hne)]
        exact ih htail

theorem lookup_putRec_pres (st : Store) (data : Obj) (k : Int)
    (h : lookupRec k st.recs ≠ none) :
    lookupRec k (st.putRec data).2.recs ≠ none := by
  obtain ⟨k₁, v₁, hshape⟩ := putRec_recs_shape st data
  rw [hshape, lookupRec_insertRec]
  by_cases hk : k₁ = k <;> simp [hk, h]

theorem lookup_applyPuts_pres (items : List Obj) (k : Int) :
    ∀ st : Store, lookupRec k st.recs ≠ none →
      lookupRec k (IDBHelper.applyPuts st items).recs ≠ none := by
  induction items with
  | nil => intro st h; exact h
  | cons it rest ih =>
      intro st h
      exact ih _ (lookup_putRec_pres st it k h)

theorem lookup_applyPuts_mem (items : List Obj) (k : Int) :
    ∀ st : Store, ∀ it ∈ items, Obj.get it "id" = some (Value.num k) →
      lookupRec k (IDBHelper.applyPuts st items).recs ≠ none := by
  induction items with
  | nil => intro st it hmem; cases hmem
  | cons d rest ih =>
      intro st it hmem hid
      rcases List.mem_cons.mp hmem with rfl | hmem
      · refine lookup_applyPuts_pres rest k _ ?_
        rw [lookupRec_putRec_self st it k hid]
        simp
      · exact ih _ it hmem hid

theorem lookup_applyDeletes_none_pres (ids : List Int) (k : Int) :
    ∀ st : Store, lookupRec k st.recs = none →
      lookupRec k (IDBHelper.applyDeletes st ids).recs = none := by
  induction ids with
  | nil => intro st h; exact h
  | cons i rest ih =>
      intro st h
      exact ih _ (lookupRec_eraseRec_none_pres k i st.recs h)

theorem lookup_applyDeletes_mem (ids : List Int) (k : Int) :
    ∀ st : Store, st.WF → k ∈ ids →
      lookupRec k (IDBHelper.applyDeletes st ids).recs = none := by
  induction ids with
  | nil => intro st _ hmem; cases hmem
  | cons i rest ih =>
      intro st hWF hmem
      rcases List.mem_cons.mp hmem with rfl | hmem
      · exact lookup_applyDeletes_none_pres rest k _
          (lookupRec_eraseRec_self k st.recs hWF.1)
      · exact ih _ (recsWF_eraseRec i st.recs hWF) hmem

theorem idOf_eq (r : Obj) (i : Int)
    (h : Obj.get r "id" = some (Value.num i)) : idOf r = i := by
  simp [idOf, h]

theorem mem_getAll_id (st : Store) (r : Obj) (h : st.WF)
    (hr : r ∈ st.getAll) :
    Obj.get r "id" = some (Value.num (idOf r)) := by
  rw [Store.getAll] at hr
  obtain ⟨p, hp, rfl⟩ := List.mem_map.mp hr
  have hid := h.2 p hp
  rw [idOf_eq p.2 p.1 hid]
  exact hid

theorem idInRange_eq (lo hi : Int) (r : Obj) (i : Int)
    (h : Obj.get r "id" = some (Value.num i)) :
    IDBHelper.idInRange lo hi r = decide (lo ≤ i ∧ i ≤ hi) := by
  simp [IDBHelper.idInRange, h]

/-! ### The claims -/

/-- C1 (counterexample): the claim that every public operation waits for a
prior open or triggers and awaits its own so that no operation is ever
issued against a null or unready handle is false for the cached-handle
facade: an operation issued right after construction, before the open
request's success callback assigns the handle, finds the handle undefined,
and the call rejects with a TypeError instead of waiting. -/
theorem C1_counterexample :
    Facade2.construct.db = none ∧
    Facade2.construct.getItem none 1 = Except.error JSError.typeError :=
  ⟨rfl, rfl⟩

/-- C1 (amended): the promise-based variant does wait on its own open
before issuing any transaction — on open failure the operation rejects
with the open's error and no transaction handle exists, on success the
transaction targets exactly the opened handle; the cached-handle variant
gives that guarantee only for operations issued after the open's success
callback has run. -/
theorem C1_open_before_tx (db : Store) (e : EngineFailure)
    (fail : Option EngineFailure) (id : Int) (f : Facade2) :
    txHandleV1 (OpenOutcome.success db) = some db ∧
    txHandleV1 (OpenOutcome.failure e) = none ∧
    getItemV1 (OpenOutcome.failure e) fail id
      = Except.error (JSError.storageError e) ∧
    getItemV1 (OpenOutcome.success db) fail id
      = IDBHelper.getItem db fail id ∧
    (f.onOpenSuccess db).getItem fail id = IDBHelper.getItem db fail id :=
  ⟨rfl, rfl, rfl, rfl, rfl⟩

/-- C2: `updateItem` rejects with the not-found error when no record is
stored at the id; otherwise it resolves and stores at that id the merge of
the patch fields over the existing record's fields — the stored id always
equals the original id even if the patch names one, and every field the
patch does not name keeps its existing value. -/
theorem C2_partialUpdate_merge (st : Store) (id : Int) (patch : Obj) :
    (lookupRec id st.recs = none →
      IDBHelper.updateItem st none none id patch
        = (Except.error (JSError.jsError "Item not found!"), st)) ∧
    (∀ existing, lookupRec id st.recs = some existing →
      (IDBHelper.updateItem st none none id patch).1 = Except.ok () ∧
      ∃ stored,
        lookupRec id (IDBHelper.updateItem st none none id patch).2.recs
          = some stored ∧
        Obj.get stored "id" = some (Value.num id) ∧
        ∀ f, f ≠ "id" →
          Obj.get stored f =
            (match Obj.get patch f with
             | some v => some v
             | none => Obj.get existing f)) := by
  constructor
  · intro h
    simp [IDBHelper.updateItem, IDBHelper.getItem, h]
  · intro ex h
    have hred : IDBHelper.updateItem st none none id patch
        = (Except.ok (),
           (st.putRec
             (Obj.spread (Obj.spread ex patch) [("id", Value.num id)])).2) := by
      simp [IDBHelper.updateItem, IDBHelper.getItem, h, IDBHelper.setItem]
    have hstored : Obj.get
        (Obj.spread (Obj.spread ex patch) [("id", Value.num id)]) "id"
        = some (Value.num id) :=
      Obj.get_spread_of_some _ _ _ _ (by simp [Obj.get])
    rw [hred]
    refine ⟨rfl, _, lookupRec_putRec_self _ _ _ hstored, hstored, ?_⟩
    intro f hf
    have hidnone : Obj.get [("id", Value.num id)] f = none := by
      simp [Obj.get, Ne.symm hf]
    rw [Obj.get_spread_of_none _ _ _ hidnone]
    cases hp : Obj.get patch f with
    | some v => rw [Obj.get_spread_of_some _ _ _ _ hp]
    | none => rw [Obj.get_spread_of_none _ _ _ hp]

/-- C2 witness: a patch on an absent id rejects with the not-found error;
a patch on a present id resolves. -/
theorem C2_partialUpdate_merge_witness :
    IDBHelper.updateItem emptyStore none none 999 [("x", Value.num 1)]
      = (Except.error (JSError.jsError "Item not found!"), emptyStore) ∧
    (IDBHelper.updateItem sampleStore5 none none 1 [("age", Value.num 2)]).1
      = Except.ok () := by
  constructor
  · exact (C2_partialUpdate_merge emptyStore 999 [("x", Value.num 1)]).1
      (by decide)
  · exact ((C2_partialUpdate_merge sampleStore5 1 [("age", Value.num 2)]).2
      [("id", Value.num 1), ("name", Value.str "a")] (by decide)).1

/-- C3: folding `setItem` over any nonempty sequence of records all
carrying the id `k`, starting from any well-formed store, leaves `getAll`
with exactly one record carrying that id, namely the last record of the
sequence — the put-style upsert replaces any record sharing the key. -/
theorem C3_upsert_unique (st : Store) (ds : List Obj) (k : Int)
    (hWF : st.WF) (hne : ds ≠ [])
    (hk : ∀ d ∈ ds, Obj.get d "id" = some (Value.num k)) :
    ∃ last, ds.getLast? = some last ∧
      (IDBHelper.runSetItems st ds).getAll.filter
        (fun r => Obj.get r "id" = some (Value.num k)) = [last] := by
  rcases List.eq_nil_or_concat' ds with rfl | ⟨init, d, rfl⟩
  · exact absurd rfl hne
  · refine ⟨d, List.getLast?_concat init, ?_⟩
    have hwf := wf_runSetItems st (init ++ [d]) hWF
    have hlast : lookupRec k (IDBHelper.runSetItems st (init ++ [d])).recs
        = some d :=
      runSetItems_append_last st init d k (hk d (by simp))
    simp only [Store.getAll]
    rw [filter_id_eq_lookup _ k hwf, hlast]
    rfl

/-- C3 witness: two inserts sharing id 7 leave exactly the second one. -/
theorem C3_upsert_unique_witness :
    ∃ last,
      ([[("id", Value.num 7), ("name", Value.str "x")],
        [("id", Value.num 7), ("name", Value.str "y")]] : List Obj).getLast?
        = some last ∧
      (IDBHelper.runSetItems emptyStore
        [[("id", Value.num 7), ("name", Value.str "x")],
         [("id", Value.num 7), ("name", Value.str "y")]]).getAll.filter
        (fun r => Obj.get r "id" = some (Value.num 7)) = [last] :=
  C3_upsert_unique emptyStore
    [[("id", Value.num 7), ("name", Value.str "x")],
     [("id", Value.num 7), ("name", Value.str "y")]] 7
    (by decide) (by decide) (by decide)

/-- C4: each bulk operation is a single transaction: it resolves exactly
when the transaction completes, with the post-state the full application
of all N puts (resp. deletes), and rejects with the transaction's error
when it aborts, leaving the pre-state untouched — no state applying only
a proper subset of the writes is ever the result. After `bulkInsert`
resolves every explicitly inserted id is retrievable, and after
`bulkDelete` resolves every deleted id is gone. -/
theorem C4_bulk_atomic (st : Store) (items : List Obj) (ids : List Int)
    (txFail : Option EngineFailure) (hWF : st.WF) :
    (IDBHelper.bulkInsert st txFail items
        = (Except.ok (), IDBHelper.applyPuts st items) ∨
      ∃ e, txFail = some e ∧
        IDBHelper.bulkInsert st txFail items
          = (Except.error (JSError.storageError e), st)) ∧
    (∀ it ∈ items, ∀ k, Obj.get it "id" = some (Value.num k) →
        IDBHelper.getItem (IDBHelper.applyPuts st items) none k
          ≠ Except.ok none) ∧
    (IDBHelper.bulkDelete st txFail ids
        = (Except.ok (), IDBHelper.applyDeletes st ids) ∨
      ∃ e, txFail = some e ∧
        IDBHelper.bulkDelete st txFail ids
          = (Except.error (JSError.storageError e), st)) ∧
    (∀ k ∈ ids,
        IDBHelper.getItem (IDBHelper.applyDeletes st ids) none k
          = Except.ok none) := by
  refine ⟨?_, ?_, ?_, ?_⟩
  · cases txFail with
    | none => exact Or.inl rfl
    | some e => exact Or.inr ⟨e, rfl, rfl⟩
  · intro it hmem k hid
    have hpres := lookup_applyPuts_mem items k st it hmem hid
    simpa [IDBHelper.getItem] using hpres
  · cases txFail with
    | none => exact Or.inl rfl
    | some e => exact Or.inr ⟨e, rfl, rfl⟩
  · intro k hmem
    have habs := lookup_applyDeletes_mem ids k st hWF hmem
    simp [IDBHelper.getItem, habs]

/-- C4 witness: after bulk-inserting ids 10 and 11 into the sample store,
id 10 is retrievable; after bulk-deleting ids 1 and 2 both are gone. -/
theorem C4_bulk_atomic_witness :
    sampleStore5.WF ∧
    IDBHelper.getItem
        (IDBHelper.applyPuts sampleStore5
          [[("id", Value.num 10)], [("id", Value.num 11)]]) none 10
      ≠ Except.ok none ∧
    IDBHelper.getItem (IDBHelper.applyDeletes sampleStore5 [1, 2]) none 2
      = Except.ok none := by
  refine ⟨by decide, ?_, ?_⟩
  · exact (C4_bulk_atomic sampleStore5
      [[("id", Value.num 10)], [("id", Value.num 11)]] [1, 2] none
      (by decide)).2.1 [("id", Value.num 10)] (by decide) 10 (by decide)
  · exact (C4_bulk_atomic sampleStore5
      [[("id", Value.num 10)], [("id", Value.num 11)]] [1, 2] none
      (by decide)).2.2.2 2 (by decide)

/-- C5: whenever the engine reports a failure for the primitive request an
operation issued (or for a bulk operation's transaction), the operation's
single future is rejected with exactly that engine-reported failure
carried by the storage-error rejection, the store is left untouched, and
no retry is performed — the failing call's result depends on that one
reported outcome alone. -/
theorem C5_failure_propagation (st : Store) (e : EngineFailure)
    (id lo hi : Int) (data : Obj) (items : List Obj) (ids : List Int)
    (indexName : String) (v : Value) (p : Obj → Bool) :
    IDBHelper.setItem st (some e) data
      = (Except.error (JSError.storageError e), st) ∧
    IDBHelper.getItem st (some e) id
      = Except.error (JSError.storageError e) ∧
    IDBHelper.getAllItems st (some e)
      = Except.error (JSError.storageError e) ∧
    IDBHelper.removeItem st (some e) id
      = (Except.error (JSError.storageError e), st) ∧
    IDBHelper.clear st (some e)
      = (Except.error (JSError.storageError e), st) ∧
    IDBHelper.hasItem st (some e) id
      = Except.error (JSError.storageError e) ∧
    IDBHelper.count st (some e)
      = Except.error (JSError.storageError e) ∧
    IDBHelper.getItemsByFilter st (some e) p
      = Except.error (JSError.storageError e) ∧
    IDBHelper.getItemsByRange st (some e) lo hi
      = Except.error (JSError.storageError e) ∧
    (indexName ∈ st.indexes →
      IDBHelper.getByIndex st (some e) indexName v
        = Except.error (JSError.storageError e)) ∧
    IDBHelper.bulkInsert st (some e) items
      = (Except.error (JSError.storageError e), st) ∧
    IDBHelper.bulkDelete st (some e) ids
      = (Except.error (JSError.storageError e), st) ∧
    IDBHelper.updateItem st (some e) none id data
      = (Except.error (JSError.storageError e), st) ∧
    (∀ existing, lookupRec id st.recs = some existing →
      IDBHelper.updateItem st none (some e) id data
        = (Except.error (JSError.storageError e), st)) := by
  refine ⟨rfl, rfl, rfl, rfl, rfl, rfl, rfl, rfl, rfl, ?_, rfl, rfl, rfl, ?_⟩
  · intro h
    simp [IDBHelper.getByIndex, h]
  · intro ex h
    simp [IDBHelper.updateItem, IDBHelper.getItem, h, IDBHelper.setItem]

/-- C5 witness: a quota failure on an indexed lookup and on the put leg of
a partial update both reject with that engine failure, store unchanged. -/
theorem C5_failure_propagation_witness :
    IDBHelper.getByIndex sampleIndexedStore
        (some EngineFailure.quotaExceeded) "name" (Value.str "a")
      = Except.error (JSError.storageError EngineFailure.quotaExceeded) ∧
    IDBHelper.updateItem sampleIndexedStore none
        (some EngineFailure.quotaExceeded) 1 [("age", Value.num 2)]
      = (Except.error (JSError.storageError EngineFailure.quotaExceeded),
         sampleIndexedStore) := by
  constructor
  · exact (C5_failure_propagation sampleIndexedStore
      EngineFailure.quotaExceeded 1 0 0 [("age", Value.num 2)] [] []
      "name" (Value.str "a")
      (fun _ => true)).2.2.2.2.2.2.2.2.2.1 (by decide)
  · exact (C5_failure_propagation sampleIndexedStore
      EngineFailure.quotaExceeded 1 0 0 [("age", Value.num 2)] [] []
      "name" (Value.str "a")
      (fun _ => true)).2.2.2.2.2.2.2.2.2.2.2.2.2
      [("id", Value.num 1), ("name", Value.str "a")] (by decide)

/-- C6: `getByIndex` against an index name not declared at schema-creation
time rejects with the index-not-found error; against a declared index it
resolves with a matching record, or with the not-found sentinel when no
record matches. -/
theorem C6_getByIndex_declared (st : Store) (indexName : String)
    (v : Value) :
    (indexName ∉ st.indexes →
      IDBHelper.getByIndex st none indexName v
        = Except.error JSError.indexNotFound) ∧
    (indexName ∈ st.indexes →
      (∃ r, IDBHelper.getByIndex st none indexName v = Except.ok (some r) ∧
         r ∈ st.getAll ∧ Obj.get r indexName = some v) ∨
      (IDBHelper.getByIndex st none indexName v = Except.ok none ∧
         ∀ r ∈ st.getAll, Obj.get r indexName ≠ some v)) := by
  constructor
  · intro h
    simp [IDBHelper.getByIndex, h]
  · intro h
    cases hf : st.recs.find? (fun q => Obj.get q.2 indexName = some v) with
    | some q =>
        left
        refine ⟨q.2, ?_, ?_, ?_⟩
        · simp [IDBHelper.getByIndex, h, hf]
        · exact List.mem_map_of_mem Prod.snd (List.mem_of_find?_eq_some hf)
        · have hq := List.find?_some hf
          simpa using hq
    | none =>
        right
        refine ⟨by simp [IDBHelper.getByIndex, h, hf], ?_⟩
        intro r hr
        simp only [Store.getAll] at hr
        obtain ⟨q, hq, rfl⟩ := List.mem_map.mp hr
        have hnone := List.find?_eq_none.mp hf q hq
        simpa using hnone

/-- C6 witness: the sample store declares no index, so the lookup rejects;
the indexed sample store resolves the lookup on its declared index. -/
theorem C6_getByIndex_declared_witness :
    (IDBHelper.getByIndex sampleStore5 none "name" (Value.str "a")
      = Except.error JSError.indexNotFound) ∧
    ((∃ r, IDBHelper.getByIndex sampleIndexedStore none "name"
           (Value.str "a") = Except.ok (some r) ∧
         r ∈ sampleIndexedStore.getAll ∧
         Obj.get r "name" = some (Value.str "a")) ∨
     (IDBHelper.getByIndex sampleIndexedStore none "name" (Value.str "a")
         = Except.ok none ∧
      ∀ r ∈ sampleIndexedStore.getAll,
        Obj.get r "name" ≠ some (Value.str "a"))) := by
  constructor
  · exact (C6_getByIndex_declared sampleStore5 "name" (Value.str "a")).1
      (by decide)
  · exact (C6_getByIndex_declared sampleIndexedStore "name"
      (Value.str "a")).2 (by decide)

/-- C7: `getItemsByRange` resolves with exactly the records whose id lies
between the two bounds, both inclusive, in ascending id order. -/
theorem C7_range_inclusive (st : Store) (lo hi : Int) (hWF : st.WF) :
    ∃ out, IDBHelper.getItemsByRange st none lo hi = Except.ok out ∧
      (∀ r, r ∈ out ↔ (r ∈ st.getAll ∧ lo ≤ idOf r ∧ idOf r ≤ hi)) ∧
      List.Pairwise (fun r s => idOf r < idOf s) out := by
  refine ⟨st.getAll.filter (IDBHelper.idInRange lo hi), rfl, ?_, ?_⟩
  · intro r
    rw [List.mem_filter]
    constructor
    · rintro ⟨hr, hp⟩
      have hid := mem_getAll_id st r hWF hr
      rw [idInRange_eq lo hi r (idOf r) hid] at hp
      exact ⟨hr, of_decide_eq_true hp⟩
    · rintro ⟨hr, hb⟩
      have hid := mem_getAll_id st r hWF hr
      refine ⟨hr, ?_⟩
      rw [idInRange_eq lo hi r (idOf r) hid]
      exact decide_eq_true hb
  · have h1 : List.Pairwise
        (fun p q : Int × Obj => idOf p.2 < idOf q.2) st.recs := by
      refine List.Pairwise.imp_of_mem ?_ hWF.1
      intro p q hp hq hlt
      rw [idOf_eq p.2 p.1 (hWF.2 p hp), idOf_eq q.2 q.1 (hWF.2 q hq)]
      exact hlt
    have h2 : List.Pairwise (fun r s : Obj => idOf r < idOf s) st.getAll := by
      simp only [Store.getAll]
      exact List.pairwise_map.mpr h1
    exact h2.filter _

/-- C7 witness: on records with ids 1..5, the range query with bounds 2
and 4 returns exactly the records with ids 2, 3, 4, in ascending order. -/
theorem C7_range_inclusive_witness :
    sampleStore5.WF ∧
    IDBHelper.getItemsByRange sampleStore5 none 2 4
      = Except.ok [[("id", Value.num 2), ("name", Value.str "b")],
                   [("id", Value.num 3), ("name", Value.str "c")],
                   [("id", Value.num 4), ("name", Value.str "d")]] ∧
    (∃ out, IDBHelper.getItemsByRange sampleStore5 none 2 4
        = Except.ok out ∧
      (∀ r, r ∈ out ↔
        (r ∈ sampleStore5.getAll ∧ 2 ≤ idOf r ∧ idOf r ≤ 4)) ∧
      List.Pairwise (fun r s => idOf r < idOf s) out) :=
  ⟨by decide, by decide, C7_range_inclusive sampleStore5 2 4 (by decide)⟩

/-- C8: `removeItem` resolves successfully whether or not the id is
present — on an absent id it is a no-op success — and is idempotent: the
second delete of the same id also succeeds and changes nothing further,
and the id is absent after either call. -/
theorem C8_delete_idempotent (st : Store) (x : Int) (hWF : st.WF) :
    ∃ st₁ st₂,
      IDBHelper.removeItem st none x = (Except.ok (), st₁) ∧
      IDBHelper.removeItem st₁ none x = (Except.ok (), st₂) ∧
      IDBHelper.hasItem st₁ none x = Except.ok false ∧
      IDBHelper.hasItem st₂ none x = Except.ok false ∧
      st₂ = st₁ ∧
      (lookupRec x st.recs = none → st₁ = st) := by
  have h₁ : lookupRec x (eraseRec x st.recs) = none :=
    lookupRec_eraseRec_self x st.recs hWF.1
  refine ⟨{ st with recs := eraseRec x st.recs }, _, rfl, rfl, ?_, ?_, ?_, ?_⟩
  · simp [IDBHelper.hasItem, h₁]
  · simp [IDBHelper.hasItem, lookupRec_eraseRec_none_pres x x _ h₁]
  · have h₂ : eraseRec x (eraseRec x st.recs) = eraseRec x st.recs :=
      eraseRec_of_lookup_none x _ h₁
    simp [h₂]
  · intro h
    have h₂ : eraseRec x st.recs = st.recs := eraseRec_of_lookup_none x _ h
    simp [h₂]

/-- C8 witness at the sample store and id 3. -/
theorem C8_delete_idempotent_witness :
    sampleStore5.WF ∧
    (∃ st₁ st₂,
      IDBHelper.removeItem sampleStore5 none 3 = (Except.ok (), st₁) ∧
      IDBHelper.removeItem st₁ none 3 = (Except.ok (), st₂) ∧
      IDBHelper.hasItem st₁ none 3 = Except.ok false ∧
      IDBHelper.hasItem st₂ none 3 = Except.ok false ∧
      st₂ = st₁ ∧
      (lookupRec 3 sampleStore5.recs = none → st₁ = sampleStore5)) :=
  ⟨by decide, C8_delete_idempotent sampleStore5 3 (by decide)⟩

/-- C9: `hasItem` resolves true exactly when `getItem` would resolve with
a record rather than with the not-found sentinel. -/
theorem C9_exists_iff_get (st : Store) (id : Int) :
    IDBHelper.hasItem st none id = Except.ok true ↔
      ∃ r, IDBHelper.getItem st none id = Except.ok (some r) := by
  simp only [IDBHelper.hasItem, IDBHelper.getItem]
  cases h : lookupRec id st.recs with
  | some r => simp [h]
  | none => simp [h]

/-- C10: a rejected `updateItem` on an absent id performs no write: the
call returns the not-found rejection together with the store exactly as
it was before the call. -/
theorem C10_reject_no_write (st : Store) (id : Int) (patch : Obj)
    (h : lookupRec id st.recs = none) :
    IDBHelper.updateItem st none none id patch
      = (Except.error (JSError.jsError "Item not found!"), st) := by
  simp [IDBHelper.updateItem, IDBHelper.getItem, h]

/-- C10 witness: the rejected update at the absent id 999 leaves the
sample store identical. -/
theorem C10_reject_no_write_witness :
    lookupRec 999 sampleStore5.recs = none ∧
    IDBHelper.updateItem sampleStore5 none none 999 [("x", Value.num 1)]
      = (Except.error (JSError.jsError "Item not found!"), sampleStore5) :=
  ⟨by decide,
   C10_reject_no_write sampleStore5 999 [("x", Value.num 1)] (by decide)⟩

end IDB
